import Mathlib

/-!
# TmBot3000 — verification of the query-understanding-and-retrieval pipeline

A shallow embedding, in Lean 4, of the core of the tmbot3000 repository:
the intent matcher (`tmIntentMatcher.js`), the AI engine (`tmAiEngine.js`:
message parsing, field resolution, retrieval orchestration, response
generation) and the timezone-aware flight formatter
(`formatUpcomingFlights`).

Modelling conventions:
- JavaScript strings are Lean `String`s; per-character operations work on
  `List Char`.  JS `\w` is `[A-Za-z0-9_]`, modelled by `isWordChar`; JS
  whitespace is modelled by its ASCII members (`isSpaceChar`) — the inputs
  the system handles are ASCII text.
- Machine numbers (epoch milliseconds, offsets) are `Int`; the arithmetic
  involved never approaches 2^53, so JS number arithmetic on them is exact
  and `Int` models it faithfully.
- An IANA time zone is modelled by its semantics: a function
  `Int → Int` from a UTC instant (epoch ms) to the zone's UTC offset in
  minutes at that instant.  The source obtains exactly this function from
  `Intl.DateTimeFormat(...).formatToParts` (`getOffsetMinutesAt`): formatting
  an instant `u` in zone `z` yields wall-clock fields whose `Date.UTC`
  reading is `u + off_z(u)·60000`.
- Asynchronous external collaborators (the Postgres answer store, the CSV
  data source, the file system) are oracle parameters, `Except String`-valued
  where the source's call can reject/throw.
- JS `Array.prototype.sort` is stable (ECMA-262, ES2019); it is modelled by
  a stable insertion sort (`sortByScoreDesc`, `sortByDepAsc`).
-/

namespace TmBot

/-! ## Character classes and low-level string operations -/

/-- JS `\w`: `[A-Za-z0-9_]` (ASCII). -/
def isWordChar (c : Char) : Bool :=
  c.isAlpha || c.isDigit || c = '_'

/-- JS `\s`, restricted to its ASCII members (space, tab, LF, VT, FF, CR). -/
def isSpaceChar (c : Char) : Bool :=
  c = ' ' || c = '\t' || c = '\n' || c = '\x0b' || c = '\x0c' || c = '\r'

/-- JS `String.prototype.toLowerCase` on ASCII text. -/
def asciiLower (s : String) : String :=
  ⟨s.data.map Char.toLower⟩

/-- Does `h` contain `n` as a contiguous sublist?  (JS `hay.includes(needle)`.) -/
def infixOf (n : List Char) : List Char → Bool
  | [] => n.isEmpty
  | c :: t => n.isPrefixOf (c :: t) || infixOf n t

/-- JS `hay.includes(needle)`. -/
def strContains (hay needle : String) : Bool :=
  infixOf needle.data hay.data

/-- JS `hay.startsWith(needle)` (also regex `^needle`). -/
def strStartsWith (hay needle : String) : Bool :=
  needle.data.isPrefixOf hay.data

/-- JS `hay.endsWith(needle)` (also regex `needle$`). -/
def strEndsWith (hay needle : String) : Bool :=
  needle.data.isSuffixOf hay.data

/-- JS `String.prototype.trim` (whitespace stripped from both ends). -/
def trimS (s : String) : String :=
  ⟨((s.data.dropWhile isSpaceChar).reverse.dropWhile isSpaceChar).reverse⟩

/-- JS `s.slice(a, b)` for `0 ≤ a ≤ b` (clamped to the string's end). -/
def strSlice (s : String) (a b : Nat) : String :=
  ⟨(s.data.drop a).take (b - a)⟩

/-! ## Word-boundary matching (JS `\b`) -/

/-- `\bw` at the head of `l`, `prev` being the character just before `l`
(none at the start of the string): `w` is a prefix of `l` and the character
after it, if any, is a non-word character.  `w` itself is all word
characters in every use below, so the boundary before is `prev` being
absent or non-word. -/
def wordHere (w : List Char) (l : List Char) : Bool :=
  w.isPrefixOf l &&
    (match l.drop w.length with
     | [] => true
     | c :: _ => !isWordChar c)

/-- Scan of `/\bw\b/.test(s)` with `prev` the character before the current
position. -/
def containsWordAux (w : List Char) : Option Char → List Char → Bool
  | prev, l =>
    ((match prev with
      | none => true
      | some c => !isWordChar c) && wordHere w l) ||
    (match l with
     | [] => false
     | c :: t => containsWordAux w (some c) t)

/-- JS `/\bw\b/.test(s)` for a word `w` made of word characters. -/
def containsWord (w s : String) : Bool :=
  containsWordAux w.data none s.data

/-- JS `/\bflight(s)?\b/.test(q)`: the optional group makes this the union
of the two whole-word tests. -/
def mentionsFlightRe (q : String) : Bool :=
  containsWord "flight" q || containsWord "flights" q

/-! ## `normalizeMessage` (tmAiEngine.js) -/

/-- The `[^\w\s]` → `' '` replacement of `normalizeMessage`. -/
def punctToSpace (c : Char) : Char :=
  if isWordChar c || isSpaceChar c then c else ' '

/-- The `\s+` → `' '` replacement: collapse every whitespace run to one
space.  `prev` records whether the previous character was whitespace. -/
def collapseWsAux : Bool → List Char → List Char
  | _, [] => []
  | prev, c :: t =>
    if isSpaceChar c then
      if prev then collapseWsAux true t else ' ' :: collapseWsAux true t
    else c :: collapseWsAux false t

/-- `normalizeMessage` (tmAiEngine.js lines 138–145): lowercase, replace
non-word/non-space characters with spaces, collapse whitespace, trim. -/
def normalizeMessage (message : String) : String :=
  trimS ⟨collapseWsAux false ((asciiLower message).data.map punctToSpace)⟩

/-! ## Field Resolver: `findFieldForTerm` (tmAiEngine.js lines 205–263)

A show record is an open-schema JS object: an ordered association list from
field name to value, where `none` models a `null`/`undefined` value.  JS
objects cannot repeat a key, and `Object.keys` enumerates fields in
declaration order, which the association-list order models. -/

/-- A show record: ordered fields, `none` = null/undefined value. -/
abbrev ShowRec := List (String × Option String)

/-- An entry of the resolver's `scored` array: `{ k, score, val }`. -/
structure Scored where
  k : String
  score : Nat
  val : String
deriving DecidableEq, Repr

/-- `norm` of `findFieldForTerm`: lowercase then drop every character
outside `[a-z0-9]` (note `_` is dropped). -/
def normAlnum (s : String) : String :=
  ⟨(asciiLower s).data.filter (fun c => c.isLower || c.isDigit)⟩

/-- Occurrence of `w` with a word boundary on its right only
(regex `w\b` with no `\b` on the left), scanning every position. -/
def containsWordRightAux (w : List Char) : List Char → Bool
  | [] => wordHere w []
  | c :: t => wordHere w (c :: t) || containsWordRightAux w t

/-- JS `/w\b/.test(s)` for `w` made of word characters. -/
def containsWordRight (w s : String) : Bool :=
  containsWordRightAux w.data s.data

/-- The resolver's time-like-verb test: `verb === 'what time is' || verb === 'when is'`. -/
def timeLikeVerb (verb : Option String) : Bool :=
  verb = some "what time is" || verb = some "when is"

/-- The score the resolver's loop gives a key (it depends only on the key
name, the term and the verb): +5 when the normalized key mentions the
normalized term, +3 when the key is time-like, +4 when the verb is
location-asking and the key is venue/city/state/country-like, +4 when the
verb is time-asking and the key is time-like. -/
def keyScore (term : String) (verb : Option String) (k : String) : Nat :=
  let nk := normAlnum k
  let nTerm := normAlnum term
  let mentions := strContains nk nTerm
  let isTimeKey := strEndsWith k "time" || containsWordRight "time" k
    || strEndsWith nk "time" || strContains nk "time"
  let isVenueKey := ["venue", "venue_name", "address", "location"].any
    (fun v => strContains nk (normAlnum v))
  let isCityKey := nk = "city" || strEndsWith nk "city"
  let isStateKey := nk = "state" || nk = "region"
  let isCountryKey := nk = "country"
  let locationLike := verb = some "where is"
  (if mentions then 5 else 0) + (if isTimeKey then 3 else 0)
  + (if locationLike && (isVenueKey || isCityKey || isStateKey || isCountryKey)
     then 4 else 0)
  + (if timeLikeVerb verb && isTimeKey then 4 else 0)

/-- One iteration of the resolver's scoring loop: score the key, and keep
the entry only when its value is non-null, non-blank after trimming, and
the score is strictly positive. -/
def scoreEntry (term : String) (verb : Option String) (e : String × Option String) :
    Option Scored :=
  match e.2 with
  | some v =>
    if trimS v ≠ "" ∧ 0 < keyScore term verb e.1
    then some ⟨e.1, keyScore term verb e.1, v⟩ else none
  | none => none

/-- The resolver's `scored` array, in key-scan (declaration) order. -/
def scoredKeys (showR : ShowRec) (term : String) (verb : Option String) :
    List Scored :=
  showR.filterMap (scoreEntry term verb)

/-- Insertion step of the model of JS stable `sort((a, b) => b.score - a.score)`:
`a` is placed before the first strictly smaller element, so elements of
equal score keep their original relative order. -/
def insertScoreDesc (a : Scored) : List Scored → List Scored
  | [] => [a]
  | b :: l => if b.score ≤ a.score then a :: b :: l else b :: insertScoreDesc a l

/-- Stable sort by score, descending (JS `scored.sort((a, b) => b.score - a.score)`). -/
def sortByScoreDesc : List Scored → List Scored
  | [] => []
  | a :: l => insertScoreDesc a (sortByScoreDesc l)

/-- Is the key present in the record with a non-blank value?  This is the
fallback loop's test `hasOwnProperty(show, p) && String(show[p] || "").trim() !== ""`. -/
def presentNonblank (showR : ShowRec) (p : String) : Bool :=
  match showR.find? (fun e => e.1 = p) with
  | some (_, some v) => trimS v ≠ ""
  | _ => false

/-- The fixed preference order of the time-field fallback. -/
def prefsList : List String := ["soundcheck_time", "load_in_time", "doors_time", "show_time"]

/-- The fallback loop over `prefs`: first present non-blank time field,
returned with score 1. -/
def timeFallbackAux (showR : ShowRec) : List String → Option Scored
  | [] => none
  | p :: rest =>
    match showR.find? (fun e => e.1 = p) with
    | some (_, some v) =>
      if trimS v ≠ "" then some ⟨p, 1, v⟩ else timeFallbackAux showR rest
    | _ => timeFallbackAux showR rest

/-- The resolver's time-field fallback (lines 248–257). -/
def timeFallback (showR : ShowRec) : Option Scored :=
  timeFallbackAux showR prefsList

/-- `findFieldForTerm` (tmAiEngine.js lines 205–263).  `term = ""` models
the falsy-`term` early return; the `!show` null check has no counterpart
because a record is always a list here. -/
def findFieldForTerm (showR : ShowRec) (term : String) (verb : Option String) :
    Option Scored :=
  if term = "" then none
  else
    match scoredKeys showR term verb with
    | [] =>
      if timeLikeVerb verb then timeFallback showR else none
    | a :: t => (sortByScoreDesc (a :: t)).head?

/-! ### Lemmas about the stable sort and the resolver -/

theorem mem_insertScoreDesc {x a : Scored} {l : List Scored} :
    x ∈ insertScoreDesc a l ↔ x = a ∨ x ∈ l := by
  induction l with
  | nil => simp [insertScoreDesc]
  | cons b t ih =>
    simp only [insertScoreDesc]
    split
    · simp [List.mem_cons]
    · simp only [List.mem_cons, ih]
      tauto

theorem insertScoreDesc_ne_nil (a : Scored) (l : List Scored) :
    insertScoreDesc a l ≠ [] := by
  cases l with
  | nil => simp [insertScoreDesc]
  | cons b t =>
    simp only [insertScoreDesc]
    split <;> simp

theorem sortByScoreDesc_eq_nil {l : List Scored} :
    sortByScoreDesc l = [] ↔ l = [] := by
  cases l with
  | nil => simp [sortByScoreDesc]
  | cons a t =>
    simp only [sortByScoreDesc]
    exact ⟨fun h => absurd h (insertScoreDesc_ne_nil _ _), fun h => by simp at h⟩

/-- The head of the descending stable sort is the first element of the
input attaining the maximal score. -/
theorem sortByScoreDesc_head_first_max :
    ∀ (l : List Scored) (r : Scored), (sortByScoreDesc l).head? = some r →
      r ∈ l ∧ (∀ x ∈ l, x.score ≤ r.score) ∧
      ∃ l1 l2, l = l1 ++ r :: l2 ∧ ∀ x ∈ l1, x.score < r.score := by
  intro l
  induction l with
  | nil => simp [sortByScoreDesc]
  | cons a t ih =>
    intro r h
    simp only [sortByScoreDesc] at h
    cases hs : sortByScoreDesc t with
    | nil =>
      have ht : t = [] := sortByScoreDesc_eq_nil.mp hs
      rw [hs] at h
      simp only [insertScoreDesc, List.head?] at h
      cases h
      subst ht
      exact ⟨List.mem_singleton.mpr rfl, by simp, [], [], rfl, by simp⟩
    | cons b s =>
      rw [hs] at h
      by_cases hba : b.score ≤ a.score
      · simp only [insertScoreDesc, if_pos hba, List.head?] at h
        cases h
        have hb := ih b (by rw [hs]; rfl)
        refine ⟨List.mem_cons_self _ _, ?_, [], t, rfl, by simp⟩
        intro x hx
        rcases List.mem_cons.mp hx with rfl | hx
        · exact le_refl _
        · exact le_trans (hb.2.1 x hx) hba
      · simp only [insertScoreDesc, if_neg hba, List.head?] at h
        cases h
        have hb := ih r (by rw [hs]; rfl)
        obtain ⟨hmem, hmax, l1, l2, heq, hlt⟩ := hb
        have haScore : a.score < r.score := by omega
        refine ⟨List.mem_cons_of_mem _ hmem, ?_, a :: l1, l2,
          by rw [heq, List.cons_append], ?_⟩
        · intro x hx
          rcases List.mem_cons.mp hx with rfl | hx
          · exact le_of_lt haScore
          · exact hmax x hx
        · intro x hx
          rcases List.mem_cons.mp hx with rfl | hx
          · exact haScore
          · exact hlt x hx

/-- A member of the `scored` array comes from a field of the record whose
value is non-null and non-blank, and scores strictly positively. -/
theorem mem_scoredKeys {showR : ShowRec} {term : String} {verb : Option String}
    {r : Scored} (h : r ∈ scoredKeys showR term verb) :
    (r.k, some r.val) ∈ showR ∧ trimS r.val ≠ "" ∧ 0 < r.score := by
  obtain ⟨e, he, hse⟩ := List.mem_filterMap.mp h
  rcases e with ⟨k, v⟩
  cases v with
  | none => simp [scoreEntry] at hse
  | some v =>
    simp only [scoreEntry] at hse
    split at hse
    · rename_i hc
      cases hse
      exact ⟨he, hc.1, hc.2⟩
    · cases hse

theorem timeFallbackAux_some :
    ∀ (ps : List String) (showR : ShowRec) (r : Scored),
      timeFallbackAux showR ps = some r →
      r.score = 1 ∧ showR.find? (fun e => e.1 = r.k) = some (r.k, some r.val) ∧
        trimS r.val ≠ "" ∧
        ∃ l1 l2, ps = l1 ++ r.k :: l2 ∧ ∀ p ∈ l1, presentNonblank showR p = false := by
  intro ps
  induction ps with
  | nil => simp [timeFallbackAux]
  | cons p rest ih =>
    intro showR r h
    simp only [timeFallbackAux] at h
    cases hf : showR.find? (fun e => e.1 = p) with
    | none =>
      rw [hf] at h
      obtain ⟨h1, h2, h3, l1, l2, heq, hall⟩ := ih showR r h
      refine ⟨h1, h2, h3, p :: l1, l2, by rw [heq, List.cons_append], ?_⟩
      intro q hq
      rcases List.mem_cons.mp hq with rfl | hq
      · simp [presentNonblank, hf]
      · exact hall q hq
    | some e =>
      rcases e with ⟨k2, v2⟩
      have hk2 : k2 = p := by
        have := List.find?_some hf
        simpa using this
      subst hk2
      cases v2 with
      | none =>
        rw [hf] at h
        obtain ⟨h1, h2, h3, l1, l2, heq, hall⟩ := ih showR r h
        refine ⟨h1, h2, h3, k2 :: l1, l2, by rw [heq, List.cons_append], ?_⟩
        intro q hq
        rcases List.mem_cons.mp hq with rfl | hq
        · simp [presentNonblank, hf]
        · exact hall q hq
      | some v =>
        rw [hf] at h
        have hm : (if trimS v ≠ "" then some (⟨k2, 1, v⟩ : Scored)
            else timeFallbackAux showR rest) = some r := h
        by_cases hv : trimS v = ""
        · rw [if_neg (by simp [hv])] at hm
          obtain ⟨h1, h2, h3, l1, l2, heq, hall⟩ := ih showR r hm
          refine ⟨h1, h2, h3, k2 :: l1, l2, by rw [heq, List.cons_append], ?_⟩
          intro q hq
          rcases List.mem_cons.mp hq with rfl | hq
          · simp [presentNonblank, hf, hv]
          · exact hall q hq
        · rw [if_pos hv] at hm
          cases hm
          exact ⟨rfl, hf, hv, [], rest, rfl, by simp⟩

theorem timeFallbackAux_none :
    ∀ (ps : List String) (showR : ShowRec),
      timeFallbackAux showR ps = none →
      ∀ p ∈ ps, presentNonblank showR p = false := by
  intro ps
  induction ps with
  | nil => simp
  | cons p rest ih =>
    intro showR h q hq
    simp only [timeFallbackAux] at h
    cases hf : showR.find? (fun e => e.1 = p) with
    | none =>
      rw [hf] at h
      rcases List.mem_cons.mp hq with rfl | hq
      · simp [presentNonblank, hf]
      · exact ih showR h q hq
    | some e =>
      rcases e with ⟨k2, v2⟩
      rw [hf] at h
      cases v2 with
      | none =>
        rcases List.mem_cons.mp hq with rfl | hq
        · simp [presentNonblank, hf]
        · exact ih showR h q hq
      | some v =>
        have hm : (if trimS v ≠ "" then some (⟨p, 1, v⟩ : Scored)
            else timeFallbackAux showR rest) = none := h
        by_cases hv : trimS v = ""
        · rw [if_neg (by simp [hv])] at hm
          rcases List.mem_cons.mp hq with rfl | hq
          · simp [presentNonblank, hf, hv]
          · exact ih showR hm q hq
        · rw [if_pos hv] at hm
          cases hm

/-! ### Claims C3 and C8 -/

/-- C3 (amended): in `findFieldForTerm`, when at least one key is a
candidate, the returned key is one with the highest score, and when several
candidate keys tie for the highest score, the key scanned FIRST among the
equally scored ones is returned (JS `Array.prototype.sort` is stable, so
`scored.sort((a, b) => b.score - a.score)[0]` is the earliest maximal
entry, not the latest). -/
theorem findFieldForTerm_returns_first_highest (showR : ShowRec) (term : String)
    (verb : Option String) (hterm : term ≠ "")
    (hne : scoredKeys showR term verb ≠ []) :
    ∃ r l1 l2, findFieldForTerm showR term verb = some r ∧
      (∀ x ∈ scoredKeys showR term verb, x.score ≤ r.score) ∧
      scoredKeys showR term verb = l1 ++ r :: l2 ∧
      (∀ x ∈ l1, x.score < r.score) := by
  unfold findFieldForTerm
  rw [if_neg hterm]
  cases hsk : scoredKeys showR term verb with
  | nil => exact absurd hsk hne
  | cons a t =>
    cases hsort : sortByScoreDesc (a :: t) with
    | nil => exact absurd (sortByScoreDesc_eq_nil.mp hsort) (by simp)
    | cons r s =>
      have hr : (sortByScoreDesc (a :: t)).head? = some r := by rw [hsort]; rfl
      obtain ⟨hmem, hmax, l1, l2, heq, hlt⟩ :=
        sortByScoreDesc_head_first_max (a :: t) r hr
      exact ⟨r, l1, l2, hr, hmax, heq, hlt⟩

/-- C3 witness: the amended theorem applied at a concrete record with one
candidate key. -/
theorem findFieldForTerm_returns_first_highest_witness :
    ∃ r l1 l2,
      findFieldForTerm [("city", some "sydney")] "city" none = some r ∧
      (∀ x ∈ scoredKeys [("city", some "sydney")] "city" none, x.score ≤ r.score) ∧
      scoredKeys [("city", some "sydney")] "city" none = l1 ++ r :: l2 ∧
      (∀ x ∈ l1, x.score < r.score) :=
  findFieldForTerm_returns_first_highest [("city", some "sydney")] "city" none
    (by decide) (by decide)

/-- C3 counterexample: on the record `{doors_time: "20:00", show_time: "21:00"}`
with term `"time"`, both keys are candidates with the equal top score 8, and
the resolver returns `doors_time` — the key scanned first, not last. -/
theorem findFieldForTerm_tie_counterexample :
    scoredKeys [("doors_time", some "20:00"), ("show_time", some "21:00")] "time" none
      = [⟨"doors_time", 8, "20:00"⟩, ⟨"show_time", 8, "21:00"⟩] ∧
    findFieldForTerm [("doors_time", some "20:00"), ("show_time", some "21:00")]
      "time" none = some ⟨"doors_time", 8, "20:00"⟩ := by
  decide

/-- C8: `findFieldForTerm` never returns a key whose value is null or blank
after trimming; a scored key is a candidate only when its value is non-null,
non-blank and its score is strictly positive; when no key is a candidate and
the verb is time-asking the result is the first of `soundcheck_time`,
`load_in_time`, `doors_time`, `show_time` present with a non-blank value,
with score 1; otherwise the result is none. -/
theorem findFieldForTerm_candidate_and_fallback (showR : ShowRec) (term : String)
    (verb : Option String) :
    (∀ r, findFieldForTerm showR term verb = some r →
       (r.k, some r.val) ∈ showR ∧ trimS r.val ≠ "" ∧ 0 < r.score) ∧
    (∀ r, r ∈ scoredKeys showR term verb →
       (r.k, some r.val) ∈ showR ∧ trimS r.val ≠ "" ∧ 0 < r.score) ∧
    (term ≠ "" → scoredKeys showR term verb = [] →
       findFieldForTerm showR term verb
         = if timeLikeVerb verb then timeFallback showR else none) ∧
    (∀ r, timeFallback showR = some r →
       r.score = 1 ∧ showR.find? (fun e => e.1 = r.k) = some (r.k, some r.val) ∧
       trimS r.val ≠ "" ∧
       ∃ l1 l2, prefsList = l1 ++ r.k :: l2 ∧
         ∀ p ∈ l1, presentNonblank showR p = false) ∧
    (timeFallback showR = none → ∀ p ∈ prefsList, presentNonblank showR p = false) := by
  refine ⟨?_, fun r h => mem_scoredKeys h, ?_, timeFallbackAux_some prefsList showR,
    timeFallbackAux_none prefsList showR⟩
  · intro r h
    unfold findFieldForTerm at h
    by_cases h0 : term = ""
    · rw [if_pos h0] at h
      cases h
    · rw [if_neg h0] at h
      cases hsk : scoredKeys showR term verb with
      | nil =>
        rw [hsk] at h
        have hm : (if timeLikeVerb verb then timeFallback showR else none) = some r := h
        by_cases htl : timeLikeVerb verb
        · rw [if_pos htl] at hm
          obtain ⟨h1, h2, h3, _⟩ := timeFallbackAux_some prefsList showR r hm
          exact ⟨by
            have := List.mem_of_find?_eq_some h2
            exact this, h3, by omega⟩
        · rw [if_neg htl] at hm
          cases hm
      | cons a t =>
        rw [hsk] at h
        have hm : (sortByScoreDesc (a :: t)).head? = some r := h
        have hmem := (sortByScoreDesc_head_first_max (a :: t) r hm).1
        rw [← hsk] at hmem
        exact mem_scoredKeys hmem
  · intro h0 hsk
    unfold findFieldForTerm
    rw [if_neg h0, hsk]

/-! ## Timezone Converter (tmAiEngine.js lines 557–575)

An IANA zone is modelled by its offset function `Zone : Int → Int` (UTC
instant in epoch ms ↦ offset minutes).  `getOffsetMinutesAt(utcMs, tz)` in
the source formats `utcMs` in `tz` with `Intl.DateTimeFormat` and returns
`(Date.UTC(fields) - utcMs) / 60000`, which is exactly the zone's offset at
that instant — here the zone's very definition.  Conversely, formatting an
instant `u` in the zone yields wall-clock fields whose `Date.UTC` reading
is `u + off(u)·60000` (`wallClockMs`). -/

/-- A time zone as its offset function: UTC epoch ms ↦ offset minutes. -/
abbrev Zone := Int → Int

/-- `getOffsetMinutesAt(utcMs, tz)`: the zone's UTC offset, in minutes, at
the given instant. -/
def getOffsetMinutesAt (tz : Zone) (utcMs : Int) : Int := tz utcMs

/-- Decimal reading of a digit string (JS unary `+` on the well-formed
numeric slices of the timestamp; `""` reads as 0, matching `+("" || "0")`).
`NaN` propagation for malformed text is outside the model: the claims
quantify over well-formed timestamps. -/
def numOf (s : String) : Int :=
  Int.ofNat (s.data.foldl
    (fun acc c => if c.isDigit then acc * 10 + (c.toNat - '0'.toNat) else acc) 0)

/-- Days from 1970-01-01 of the civil date y-m-d (m in 1..12; the
days-from-civil algorithm every epoch conversion uses). -/
def daysFromCivil (y m d : Int) : Int :=
  let y2 := y - (if m ≤ 2 then 1 else 0)
  let era := Int.fdiv y2 400
  let yoe := y2 - era * 400
  let mp := Int.fmod (m + 9) 12
  let doy := Int.fdiv (153 * mp + 2) 5 + d - 1
  let doe := yoe * 365 + Int.fdiv yoe 4 - Int.fdiv yoe 100 + doy
  era * 146097 + doe - 719468

/-- `Date.UTC(y, m0, d, h, mi, s)` in epoch ms (`m0` zero-based; JS
normalizes out-of-range fields by rollover, modelled by the month
normalization and the purely additive day/time terms). -/
def dateUTC (y m0 d h mi s : Int) : Int :=
  let ym := y * 12 + m0
  let yy := Int.fdiv ym 12
  let mm := Int.fmod ym 12 + 1
  (daysFromCivil yy mm 1 + (d - 1)) * 86400000 + h * 3600000 + mi * 60000 + s * 1000

/-- The six fixed-offset slices of `zonedLocalToEpochMs` read as if they
were UTC: `Date.UTC(Y, M - 1, D, h, m, s)` (lines 568–570). -/
def localFieldsAsUtcMs (localIso : String) : Int :=
  dateUTC (numOf (strSlice localIso 0 4)) (numOf (strSlice localIso 5 7) - 1)
    (numOf (strSlice localIso 8 10)) (numOf (strSlice localIso 11 13))
    (numOf (strSlice localIso 14 16)) (numOf (strSlice localIso 17 19))

/-- `zonedLocalToEpochMs(localIso, tz)` (lines 567–575): provisional
as-if-UTC instant, offset at it, first correction, offset recomputed at the
correction, final instant. -/
def zonedLocalToEpochMs (tz : Zone) (localIso : String) : Int :=
  let base := localFieldsAsUtcMs localIso
  let off := getOffsetMinutesAt tz base
  let guess := base - off * 60000
  let off2 := getOffsetMinutesAt tz guess
  base - off2 * 60000

/-- The as-if-UTC reading of the wall-clock fields the zone's formatter
shows for `instant`: the round trip reproduces the original fields iff
this equals `localFieldsAsUtcMs` of the input. -/
def wallClockMs (tz : Zone) (instant : Int) : Int :=
  instant + getOffsetMinutesAt tz instant * 60000

/-- A zone with a single offset transition at the instant `T`: `a` minutes
before `T`, `b` minutes from `T` on — the shape of every real IANA zone on
any window containing at most one DST transition. -/
def stepZone (a b T : Int) : Zone := fun u => if u < T then a else b

/-! ### Claim C2 -/

/-- C2 (amended): for a zone with a single offset transition, whenever SOME
instant in the zone exhibits the timestamp's wall-clock fields (the local
time exists), the two-pass conversion returns such an instant — formatting
it back in the zone reproduces the fields exactly, including on a DST
transition date.  (Wall-clock times skipped by a spring-forward transition
correspond to no instant at all, and for them the round trip cannot and
does not hold: see the counterexample.) -/
theorem zonedLocalToEpochMs_round_trips (a b T : Int) (localIso : String)
    (h : ∃ u, wallClockMs (stepZone a b T) u = localFieldsAsUtcMs localIso) :
    wallClockMs (stepZone a b T) (zonedLocalToEpochMs (stepZone a b T) localIso)
      = localFieldsAsUtcMs localIso := by
  obtain ⟨u, hu⟩ := h
  simp only [wallClockMs, zonedLocalToEpochMs, getOffsetMinutesAt, stepZone] at hu ⊢
  set base := localFieldsAsUtcMs localIso
  split_ifs at hu ⊢ <;> omega

/-- C2 witness: the amended theorem applied to the modelled 2025
Australia/Sydney transition (UTC+10 → UTC+11 at 2025-10-04T16:00:00Z,
epoch ms 1759593600000) and the existing local time 2025-10-05T12:00:00,
whose instant is 39600000 ms (11 h) before its as-if-UTC reading. -/
theorem zonedLocalToEpochMs_round_trips_witness :
    wallClockMs (stepZone 600 660 1759593600000)
        (zonedLocalToEpochMs (stepZone 600 660 1759593600000) "2025-10-05T12:00:00")
      = localFieldsAsUtcMs "2025-10-05T12:00:00" :=
  zonedLocalToEpochMs_round_trips 600 660 1759593600000 "2025-10-05T12:00:00"
    ⟨localFieldsAsUtcMs "2025-10-05T12:00:00" - 39600000, by decide⟩

/-- C2 counterexample: in the modelled 2025 Australia/Sydney zone (offset
600 min before the transition instant 1759593600000 = 2025-10-04T16:00:00Z,
660 min after), the local timestamp 2025-10-05T02:30:00 falls in the
spring-forward gap; the converted instant formats back as 03:30, not 02:30,
so the round trip does not reproduce the wall-clock fields. -/
theorem zonedLocalToEpochMs_dst_gap_counterexample :
    wallClockMs (stepZone 600 660 1759593600000)
        (zonedLocalToEpochMs (stepZone 600 660 1759593600000) "2025-10-05T02:30:00")
      ≠ localFieldsAsUtcMs "2025-10-05T02:30:00" := by
  decide

/-! ## Flight Scheduler: `formatUpcomingFlights` (tmAiEngine.js lines 506–634)

The CSV rows after header resolution are the input `List FlightRow` (every
field a string, `""` for a missing column).  `upcomingList` is the record
pipeline of the source up to, and excluding, the string rendering: timezone
default, departure-time presence filter, departure-instant computation,
directional filter, past-drop, ascending sort, `todayOnly`, the
empty-result early return, `nextOnly`, and the `limit` cap guarded by
`limit`'s truthiness. -/

structure FlightRow where
  airline : String
  flight_number : String
  departure_city : String
  arrival_city : String
  departure_time : String
  arrival_time : String
  departure_timezone : String
  arrival_timezone : String
  confirmation : String
deriving DecidableEq, Repr

/-- The options object the travel handlers build. -/
structure FlightOpts where
  userTz : String := ""
  toCity : Option String := none
  fromCity : Option String := none
  city : Option String := none
  nextOnly : Bool := false
  todayOnly : Bool := false
deriving DecidableEq, Repr

/-- JS truthiness of an optional string option (`undefined` and `""` are falsy). -/
def optTruthy : Option String → Bool
  | some s => s ≠ ""
  | none => false

/-- The named zones the `Intl` formatter resolves: zone name ↦ offset function. -/
abbrev ZoneEnv := String → Zone

/-- `a[I.departure_timezone] || opts.userTz || "Australia/Sydney"` (line 552). -/
def applyTzDefault (opts : FlightOpts) (r : FlightRow) : FlightRow :=
  if r.departure_timezone = "" then
    { r with departure_timezone :=
        if opts.userTz = "" then "Australia/Sydney" else opts.userTz }
  else r

/-- A row with its computed absolute departure instant (`{ ...r, depEpoch }`). -/
structure DepRow where
  row : FlightRow
  depEpoch : Int
deriving DecidableEq, Repr

/-- Lines 545–555 and 579: timezone default, `.filter(r => r.departure_time)`,
then `depEpoch = zonedLocalToEpochMs(departure_time, departure_timezone)`. -/
def depRows (zones : ZoneEnv) (opts : FlightOpts) (rows : List FlightRow) :
    List DepRow :=
  (((rows.map (applyTzDefault opts)).filter (fun r => r.departure_time ≠ "")).map
    (fun r => ⟨r, zonedLocalToEpochMs (zones r.departure_timezone) r.departure_time⟩))

/-- The single directional predicate the `toCity`/`fromCity`/`city` cascade
amounts to: `toCity` matches the arrival city, else `fromCity` the departure
city, else `city` either, else everything; matches are case-insensitive and
exact. -/
def dirPredB (opts : FlightOpts) (r : DepRow) : Bool :=
  if optTruthy opts.toCity then
    asciiLower r.row.arrival_city = asciiLower (opts.toCity.getD "")
  else if optTruthy opts.fromCity then
    asciiLower r.row.departure_city = asciiLower (opts.fromCity.getD "")
  else if optTruthy opts.city then
    (asciiLower r.row.departure_city = asciiLower (opts.city.getD "")
      || asciiLower r.row.arrival_city = asciiLower (opts.city.getD ""))
  else true

/-- The `if (opts.toCity) ... else if (opts.fromCity) ... else if (opts.city) ...`
filter cascade (lines 581–593), exactly as in the source. -/
def dirFilter (opts : FlightOpts) (l : List DepRow) : List DepRow :=
  if optTruthy opts.toCity then
    l.filter (fun r => asciiLower r.row.arrival_city = asciiLower (opts.toCity.getD ""))
  else if optTruthy opts.fromCity then
    l.filter (fun r => asciiLower r.row.departure_city = asciiLower (opts.fromCity.getD ""))
  else if optTruthy opts.city then
    l.filter (fun r => asciiLower r.row.departure_city = asciiLower (opts.city.getD "")
      || asciiLower r.row.arrival_city = asciiLower (opts.city.getD ""))
  else l

/-- Insertion step of the model of JS stable `sort((a, b) => a.depEpoch - b.depEpoch)`. -/
def insertDepAsc (a : DepRow) : List DepRow → List DepRow
  | [] => [a]
  | b :: l => if a.depEpoch ≤ b.depEpoch then a :: b :: l else b :: insertDepAsc a l

/-- Stable ascending sort by departure instant. -/
def sortByDepAsc : List DepRow → List DepRow
  | [] => []
  | a :: l => insertDepAsc a (sortByDepAsc l)

/-- The zone name the `todayOnly` comparison formats in: `opts.userTz || "Australia/Sydney"`. -/
def userTzName (opts : FlightOpts) : String :=
  if opts.userTz = "" then "Australia/Sydney" else opts.userTz

/-- The civil day number the `en-CA` `YYYY-MM-DD` formatter shows for an
instant in a zone: two instants render the same date exactly when their
offset-shifted ms fall in the same day. -/
def localDay (zones : ZoneEnv) (tzName : String) (ms : Int) : Int :=
  Int.fdiv (ms + (zones tzName) ms * 60000) 86400000

/-- The pipeline through the `todayOnly` filter (lines 579–611): the `list`
variable just before the empty-result check. -/
def upcomingSorted (zones : ZoneEnv) (now : Int) (opts : FlightOpts)
    (rows : List FlightRow) : List DepRow :=
  let l4 := sortByDepAsc
    ((dirFilter opts (depRows zones opts rows)).filter (fun r => now ≤ r.depEpoch))
  if opts.todayOnly then
    l4.filter (fun r => localDay zones (userTzName opts) r.depEpoch
      = localDay zones (userTzName opts) now)
  else l4

/-- `if (opts.nextOnly) list = [list[0]]` (line 614): on the non-empty list
this reaches, `[list[0]]` is `take 1`. -/
def nextPick (opts : FlightOpts) (l : List DepRow) : List DepRow :=
  if opts.nextOnly then l.take 1 else l

/-- `if (limit && list.length > limit) list = list.slice(0, limit)` (line
615): the cap applies only when `limit` is truthy (non-zero). -/
def capLimit (limit : Nat) (l : List DepRow) : List DepRow :=
  if limit ≠ 0 ∧ limit < l.length then l.take limit else l

/-- The final record list of `formatUpcomingFlights` (lines 613–615): empty
early return (`return "I found 0 flights."`), `nextOnly`, then the guarded
`limit` cap. -/
def upcomingList (zones : ZoneEnv) (now : Int) (limit : Nat) (opts : FlightOpts)
    (rows : List FlightRow) : List DepRow :=
  if upcomingSorted zones now opts rows = [] then []
  else capLimit limit (nextPick opts (upcomingSorted zones now opts rows))

/-! ### Lemmas about the flight pipeline -/

theorem dirFilter_eq_filter (opts : FlightOpts) (l : List DepRow) :
    dirFilter opts l = l.filter (dirPredB opts) := by
  by_cases h1 : optTruthy opts.toCity = true
  · simp only [dirFilter, if_pos h1]
    refine List.filter_congr ?_
    intro r hr
    simp [dirPredB, h1]
  · by_cases h2 : optTruthy opts.fromCity = true
    · simp only [dirFilter, h1, if_false, if_pos h2, Bool.false_eq_true]
      refine List.filter_congr ?_
      intro r hr
      simp [dirPredB, h1, h2]
    · by_cases h3 : optTruthy opts.city = true
      · simp only [dirFilter, h1, h2, if_false, if_pos h3, Bool.false_eq_true]
        refine List.filter_congr ?_
        intro r hr
        simp [dirPredB, h1, h2, h3]
      · simp only [dirFilter, h1, h2, h3, if_false, Bool.false_eq_true]
        symm
        refine List.filter_eq_self.mpr ?_
        intro r hr
        simp [dirPredB, h1, h2, h3]

theorem mem_insertDepAsc {x a : DepRow} {l : List DepRow} :
    x ∈ insertDepAsc a l ↔ x = a ∨ x ∈ l := by
  induction l with
  | nil => simp [insertDepAsc]
  | cons b t ih =>
    simp only [insertDepAsc]
    split
    · simp [List.mem_cons]
    · simp only [List.mem_cons, ih]
      tauto

theorem mem_sortByDepAsc {x : DepRow} {l : List DepRow} :
    x ∈ sortByDepAsc l ↔ x ∈ l := by
  induction l with
  | nil => simp [sortByDepAsc]
  | cons a t ih =>
    simp only [sortByDepAsc, mem_insertDepAsc, ih, List.mem_cons]

theorem pairwise_insertDepAsc {a : DepRow} {l : List DepRow}
    (h : l.Pairwise (fun p q => p.depEpoch ≤ q.depEpoch)) :
    (insertDepAsc a l).Pairwise (fun p q => p.depEpoch ≤ q.depEpoch) := by
  induction l with
  | nil => simp [insertDepAsc]
  | cons b t ih =>
    rcases List.pairwise_cons.mp h with ⟨hb, ht⟩
    simp only [insertDepAsc]
    split_ifs with hab
    · refine List.pairwise_cons.mpr ⟨?_, h⟩
      intro x hx
      rcases List.mem_cons.mp hx with rfl | hx
      · exact hab
      · exact le_trans hab (hb x hx)
    · refine List.pairwise_cons.mpr ⟨?_, ih ht⟩
      intro x hx
      rcases mem_insertDepAsc.mp hx with rfl | hx
      · omega
      · exact hb x hx

theorem pairwise_sortByDepAsc (l : List DepRow) :
    (sortByDepAsc l).Pairwise (fun p q => p.depEpoch ≤ q.depEpoch) := by
  induction l with
  | nil => simp [sortByDepAsc]
  | cons a t ih => exact pairwise_insertDepAsc ih

/-- Members of the sorted, filtered pipeline satisfy the directional
predicate and are not in the past. -/
theorem mem_upcomingSorted {zones : ZoneEnv} {now : Int} {opts : FlightOpts}
    {rows : List FlightRow} {r : DepRow}
    (h : r ∈ upcomingSorted zones now opts rows) :
    dirPredB opts r = true ∧ now ≤ r.depEpoch := by
  have h4 : r ∈ sortByDepAsc
      ((dirFilter opts (depRows zones opts rows)).filter (fun r => now ≤ r.depEpoch)) := by
    unfold upcomingSorted at h
    split_ifs at h
    · exact List.mem_of_mem_filter h
    · exact h
  have h3 := mem_sortByDepAsc.mp h4
  have h2 := List.mem_filter.mp h3
  rw [dirFilter_eq_filter] at h2
  have h1 := List.mem_filter.mp h2.1
  exact ⟨h1.2, by simpa using h2.2⟩

theorem pairwise_upcomingSorted (zones : ZoneEnv) (now : Int) (opts : FlightOpts)
    (rows : List FlightRow) :
    (upcomingSorted zones now opts rows).Pairwise
      (fun p q => p.depEpoch ≤ q.depEpoch) := by
  unfold upcomingSorted
  split_ifs
  · exact (pairwise_sortByDepAsc _).filter _
  · exact pairwise_sortByDepAsc _

/-! ### Claim C6 -/

/-- C6 (amended): `formatUpcomingFlights` applies at most one directional
filter chosen by the precedence `toCity` > `fromCity` > generic `city`
(case-insensitive exact match against the corresponding city field), drops
every record whose computed departure instant precedes now, sorts the
remainder ascending by that instant, keeps only the first remaining record
when `nextOnly` is set, and — when `limit` is positive — caps the result to
`limit`.  (A zero `limit` is falsy in `if (limit && list.length > limit)`,
so it disables the cap: see the counterexample.) -/
theorem upcomingFlights_filters_sorts_caps (zones : ZoneEnv) (now : Int)
    (limit : Nat) (opts : FlightOpts) (rows : List FlightRow) (hlim : 0 < limit) :
    (∀ r ∈ upcomingList zones now limit opts rows,
        dirPredB opts r = true ∧ now ≤ r.depEpoch) ∧
    (upcomingList zones now limit opts rows).Pairwise
      (fun p q => p.depEpoch ≤ q.depEpoch) ∧
    (opts.nextOnly = true →
      upcomingList zones now limit opts rows
        = (upcomingSorted zones now opts rows).take 1) ∧
    (upcomingList zones now limit opts rows).length ≤ limit := by
  by_cases hS : upcomingSorted zones now opts rows = []
  · simp [upcomingList, hS, nextPick, capLimit]
  · have hU : upcomingList zones now limit opts rows
        = capLimit limit (nextPick opts (upcomingSorted zones now opts rows)) := by
      unfold upcomingList
      rw [if_neg hS]
    have hmem6 : ∀ r ∈ nextPick opts (upcomingSorted zones now opts rows),
        r ∈ upcomingSorted zones now opts rows := by
      intro r hr
      unfold nextPick at hr
      split_ifs at hr
      · exact List.take_subset _ _ hr
      · exact hr
    have hpw6 : (nextPick opts (upcomingSorted zones now opts rows)).Pairwise
        (fun p q => p.depEpoch ≤ q.depEpoch) := by
      unfold nextPick
      split_ifs
      · exact (pairwise_upcomingSorted zones now opts rows).sublist
          (List.take_sublist _ _)
      · exact pairwise_upcomingSorted zones now opts rows
    refine ⟨?_, ?_, ?_, ?_⟩
    · intro r hr
      rw [hU] at hr
      unfold capLimit at hr
      have hr6 : r ∈ nextPick opts (upcomingSorted zones now opts rows) := by
        split_ifs at hr
        · exact List.take_subset _ _ hr
        · exact hr
      exact mem_upcomingSorted (hmem6 r hr6)
    · rw [hU]
      unfold capLimit
      split_ifs
      · exact hpw6.sublist (List.take_sublist _ _)
      · exact hpw6
    · intro hnext
      rw [hU]
      unfold nextPick
      rw [if_pos hnext]
      unfold capLimit
      have hle : (List.take 1 (upcomingSorted zones now opts rows)).length ≤ 1 := by
        simp
      rw [if_neg (by omega)]
    · rw [hU]
      unfold capLimit
      split_ifs with hc
      · simp
      · push_neg at hc
        have := hc (by omega)
        omega

/-- C6 witness: the amended theorem at a one-row table, `limit = 10`. -/
theorem upcomingFlights_filters_sorts_caps_witness :
    (∀ r ∈ upcomingList (fun _ _ => 0) 0 10 { userTz := "Australia/Sydney" }
        [⟨"QF", "1", "sydney", "auckland", "2099-01-01T00:00:00", "", "UTC", "", ""⟩],
        dirPredB { userTz := "Australia/Sydney" } r = true ∧ (0 : Int) ≤ r.depEpoch) ∧
    (upcomingList (fun _ _ => 0) 0 10 { userTz := "Australia/Sydney" }
        [⟨"QF", "1", "sydney", "auckland", "2099-01-01T00:00:00", "", "UTC", "", ""⟩]).Pairwise
      (fun p q => p.depEpoch ≤ q.depEpoch) ∧
    (({ userTz := "Australia/Sydney" } : FlightOpts).nextOnly = true →
      upcomingList (fun _ _ => 0) 0 10 { userTz := "Australia/Sydney" }
          [⟨"QF", "1", "sydney", "auckland", "2099-01-01T00:00:00", "", "UTC", "", ""⟩]
        = (upcomingSorted (fun _ _ => 0) 0 { userTz := "Australia/Sydney" }
            [⟨"QF", "1", "sydney", "auckland", "2099-01-01T00:00:00", "", "UTC", "", ""⟩]).take 1) ∧
    (upcomingList (fun _ _ => 0) 0 10 { userTz := "Australia/Sydney" }
        [⟨"QF", "1", "sydney", "auckland", "2099-01-01T00:00:00", "", "UTC", "", ""⟩]).length ≤ 10 :=
  upcomingFlights_filters_sorts_caps (fun _ _ => 0) 0 10 { userTz := "Australia/Sydney" }
    [⟨"QF", "1", "sydney", "auckland", "2099-01-01T00:00:00", "", "UTC", "", ""⟩]
    (by decide)

/-- C6 counterexample: with `limit = 0` the guard `if (limit && ...)` is
falsy, so a one-flight future table yields one record — the result is not
capped to the limit 0. -/
theorem upcomingFlights_limit_zero_counterexample :
    (upcomingList (fun _ _ => 0) 0 0 { userTz := "Australia/Sydney" }
      [⟨"QF", "1", "sydney", "auckland", "2099-01-01T00:00:00", "", "UTC", "", ""⟩]).length
      = 1 := by
  decide

/-! ## Intent Classifier: `matchIntent` (tmIntentMatcher.js lines 16–70)

The file requires `normalize` (normalizer.js), `lookupExact`/`lookupInSentence`
(termIndex.js) and `cleanName` (textUtils.js), none of which are in the
repository's files; they are modelled from the spec (§4.1, §4.2), and
`cleanName` — which the spec never describes — stays an arbitrary total
string function parameter.  Confidences are recorded in hundredths
(0.95 ↦ 95) to stay exact; a `none` field models a field absent from the
returned JS object. -/

/-- The intent object `matchIntent` returns. -/
structure IntentR where
  intent_type : Option String := none
  confidence : Option Nat := none
  term_id : Option String := none
  original_query : Option String := none
  error : Option String := none
deriving DecidableEq, Repr

/-- Modelled from the spec: `normalize` of the missing `normalizer.js`.
§4.2 defines normalization as lowercase, replace non-word/non-space
characters with spaces, collapse whitespace, trim — exactly what
`normalizeMessage` implements. -/
def normalizeSpec (text : String) : String := normalizeMessage text

/-- Modelled from the spec: `lookupExact` of the missing `termIndex.js` —
an exact vocabulary match of the normalized text, yielding the term id. -/
def lookupExact (vocab : List String) (n : String) : Option String :=
  if vocab.contains n then some n else none

/-- Modelled from the spec: `lookupInSentence` of the missing `termIndex.js`
— the first vocabulary term occurring inside the normalized sentence. -/
def lookupInSentence (vocab : List String) (n : String) : Option String :=
  vocab.find? (fun t => strContains n t)

/-- Does `"show"` occur ahead without an intervening line terminator?
(`.*` in a JS regex without the `s` flag matches anything but line
terminators; the ASCII ones are `\n` and `\r`.) -/
def showAheadAux : List Char → Bool
  | [] => false
  | c :: t =>
    "show".data.isPrefixOf (c :: t) || (c ≠ '\n' && c ≠ '\r' && showAheadAux t)

/-- `/what time.*show/.test(q)`: some occurrence of `"what time"` followed,
on the same line, by `"show"`. -/
def whatTimeShowAux : List Char → Bool
  | [] => false
  | c :: t =>
    ("what time".data.isPrefixOf (c :: t) && showAheadAux ((c :: t).drop 9))
      || whatTimeShowAux t

/-- `/schedule|showtime|what time.*show/.test(q)`. -/
def reSchedule (q : String) : Bool :=
  strContains q "schedule" || strContains q "showtime" || whatTimeShowAux q.data

/-- `/sound.?check/.test(q)`: `"sound"`, at most one non-line-terminator
character, then `"check"`. -/
def soundDotCheckAux : List Char → Bool
  | [] => false
  | c :: t =>
    ("sound".data.isPrefixOf (c :: t) &&
      ("check".data.isPrefixOf ((c :: t).drop 5) ||
        (match (c :: t).drop 5 with
         | [] => false
         | d :: rest => d ≠ '\n' && d ≠ '\r' && "check".data.isPrefixOf rest)))
      || soundDotCheckAux t

/-- `/load in|load-out|sound.?check|curfew|setlist/.test(q)`. -/
def reProduction (q : String) : Bool :=
  strContains q "load in" || strContains q "load-out" || soundDotCheckAux q.data
    || strContains q "curfew" || strContains q "setlist"

/-- `/flight|airport|travel|hotel|check[- ]?in|check[- ]?out/.test(q)`
(the character class `[- ]?` is an optional hyphen or space). -/
def reTravel (q : String) : Bool :=
  strContains q "flight" || strContains q "airport" || strContains q "travel"
    || strContains q "hotel"
    || strContains q "checkin" || strContains q "check-in" || strContains q "check in"
    || strContains q "checkout" || strContains q "check-out" || strContains q "check out"

/-- `/merch|merchandise|t[- ]?shirts?|hoodies?|seller|stand/.test(q)`.  For
substring containment the optional trailing `s?` adds nothing (a hit with
the `s` contains the stem), and `merchandise` contains `merch`. -/
def reMerch (q : String) : Bool :=
  strContains q "merch"
    || strContains q "tshirt" || strContains q "t-shirt" || strContains q "t shirt"
    || strContains q "hoodie" || strContains q "seller" || strContains q "stand"

/-- `/budget|costs?|expenses?|financial|accounting|invoice|payment/.test(q)`. -/
def reFinancial (q : String) : Bool :=
  strContains q "budget" || strContains q "cost" || strContains q "expense"
    || strContains q "financial" || strContains q "accounting"
    || strContains q "invoice" || strContains q "payment"

/-- `/photo\s?pass/.test(q)`: `"photo"`, at most one whitespace, `"pass"`. -/
def photoPassAux : List Char → Bool
  | [] => false
  | c :: t =>
    ("photo".data.isPrefixOf (c :: t) &&
      ("pass".data.isPrefixOf ((c :: t).drop 5) ||
        (match (c :: t).drop 5 with
         | [] => false
         | d :: rest => isSpaceChar d && "pass".data.isPrefixOf rest)))
      || photoPassAux t

/-- `/press|media|interview|photographer|photo\s?pass|press commitments?/.test(q)`
(`press commitments?` contains `press`, so it adds nothing). -/
def reMedia (q : String) : Bool :=
  strContains q "press" || strContains q "media" || strContains q "interview"
    || strContains q "photographer" || photoPassAux q.data

/-- `/^(help|what can i ask|what can you do)/.test(q)`: anchored at the start. -/
def reHelp (q : String) : Bool :=
  strStartsWith q "help" || strStartsWith q "what can i ask"
    || strStartsWith q "what can you do"

/-- The try body: the ordered keyword/regex cascade (lines 29–57), first
match wins; no match leaves the default null intent with confidence 0. -/
def rulesIntent (q : String) : IntentR :=
  if reSchedule q then { intent_type := some "show_schedule", confidence := some 95 }
  else if reProduction q then { intent_type := some "production", confidence := some 90 }
  else if reTravel q then { intent_type := some "travel", confidence := some 90 }
  else if reMerch q then { intent_type := some "merch", confidence := some 90 }
  else if reFinancial q then { intent_type := some "financial", confidence := some 90 }
  else if reMedia q then { intent_type := some "media", confidence := some 90 }
  else if reHelp q then { intent_type := some "help", confidence := some 99 }
  else { intent_type := none, confidence := some 0 }

/-- The catch block (lines 58–67): an exception from rule evaluation turns
into the null intent carrying the original query and the error message. -/
def catchToNull (content : String) (e : String) : IntentR :=
  { intent_type := none, confidence := some 0, original_query := some content,
    error := some e }

/-- The rule cascade translated into the exception discipline: every JS
operation in the try body (regex tests on a string, object literals) is
total, so the translated body always succeeds. -/
def rulesBody (q : String) : Except String IntentR :=
  Except.ok (rulesIntent q)

/-- `matchIntent` (tmIntentMatcher.js lines 16–70).  `q` is
`cleanName(content).toLowerCase()`; the fast path runs on
`normalize(arguments[0])`, i.e. on the raw content; a fast-path hit
returns `{ intent_type: "term_lookup", term_id, entities: {} }` — with no
`confidence` field — before the try/catch is ever entered. -/
def matchIntent (cleanNameF : String → String) (vocab : List String)
    (content : String) : Except String IntentR :=
  let q := asciiLower (cleanNameF content)
  let norm := normalizeSpec content
  match (lookupExact vocab norm).orElse (fun _ => lookupInSentence vocab norm) with
  | some hit =>
    Except.ok { intent_type := some "term_lookup", term_id := some hit }
  | none =>
    Except.ok (match rulesBody q with
      | Except.ok i => i
      | Except.error e => catchToNull content e)

/-! ### Claims C4 and C5 -/

/-- C4 (amended): whenever normalization yields an exact vocabulary match
or a substring-in-sentence match, `matchIntent` returns
`{ intent_type: "term_lookup", term_id: <hit>, entities: {} }`
unconditionally for every `cleanName` — bypassing all keyword/regex rules,
even when the text also matches the schedule rule — but WITHOUT a
`confidence` field (so not `confidence: 1.0`). -/
theorem matchIntent_fast_path_bypasses_rules (cleanNameF : String → String)
    (vocab : List String) (content hit : String)
    (h : (lookupExact vocab (normalizeSpec content)).orElse
        (fun _ => lookupInSentence vocab (normalizeSpec content)) = some hit) :
    matchIntent cleanNameF vocab content
      = Except.ok { intent_type := some "term_lookup", confidence := none,
                    term_id := some hit, original_query := none, error := none } := by
  simp only [matchIntent]
  rw [h]

/-- C4 witness: the amended theorem at the message "what is a soundcheck"
with vocabulary `["soundcheck"]` (a sentence fast-path hit). -/
theorem matchIntent_fast_path_bypasses_rules_witness :
    matchIntent id ["soundcheck"] "what is a soundcheck"
      = Except.ok { intent_type := some "term_lookup", confidence := none,
                    term_id := some "soundcheck", original_query := none, error := none } :=
  matchIntent_fast_path_bypasses_rules id ["soundcheck"] "what is a soundcheck"
    "soundcheck" (by decide)

/-- C4 counterexample: "soundcheck schedule" with vocabulary
`["soundcheck"]` takes the fast path (and the text also matches the
schedule regex), yet the returned intent carries no `confidence` field at
all — in particular not `confidence: 1.0`. -/
theorem matchIntent_fast_path_confidence_counterexample :
    matchIntent id ["soundcheck"] "soundcheck schedule"
      = Except.ok { intent_type := some "term_lookup", confidence := none,
                    term_id := some "soundcheck", original_query := none, error := none } ∧
    reSchedule (asciiLower (id "soundcheck schedule")) = true := by
  exact ⟨rfl, rfl⟩

/-- C5: classification never raises to its caller — for every (total)
`cleanName` and vocabulary the translated `matchIntent` always yields
`Except.ok` (the try body's operations are total; the fast path and the
cascade return plain objects) — and the catch block converts an exception
`e` during rule evaluation into the null intent
`{ intent_type: null, confidence: 0 }` carrying the original text and the
error message. -/
theorem matchIntent_never_raises (cleanNameF : String → String)
    (vocab : List String) (content e : String) :
    (∃ i, matchIntent cleanNameF vocab content = Except.ok i) ∧
    catchToNull content e
      = { intent_type := none, confidence := some 0, term_id := none,
          original_query := some content, error := some e } := by
  refine ⟨?_, rfl⟩
  simp only [matchIntent]
  cases hfast : (lookupExact vocab (normalizeSpec content)).orElse
      (fun _ => lookupInSentence vocab (normalizeSpec content)) with
  | none => exact ⟨_, rfl⟩
  | some hit => exact ⟨_, rfl⟩

/-! ## The engine: parsing, retrieval and response generation
(tmAiEngine.js, src/unnamed/part_001)

The engine instance's loaded vocabularies and its external collaborators
(CSV data source, Postgres answer store, flight formatter, `Date` parsing
and formatting, `Math.random`) are gathered in `Engine`; fallible calls are
`Except String`-valued. -/

/-- The result of `parseMessage`: `{ verb, entities, normalized }`. -/
structure Parsed where
  verb : Option String := none
  entities : List String := []
  normalized : String := ""
deriving DecidableEq, Repr

/-- The tagged union `retrieveData` produces. -/
inductive Retrieved where
  | contextualTerm (term city field value : String)
  | contextualLocation (term city field value place : String)
  | genericTerm (term definition : String)
  | travelSchedule (text : String)
deriving DecidableEq, Repr

/-- The engine's state and collaborators. -/
structure Engine where
  industryTerms : List String := []
  cities : List String := []
  getShows : Except String (List ShowRec) := Except.ok []
  resolveAnswerF : String → String → Except String (Option String) :=
    fun _ _ => Except.ok none
  fmtFlights : Nat → FlightOpts → Except String String := fun _ _ => Except.ok ""
  randPick : Nat := 0
  nowMs : Int := 0
  parseDateF : String → Option Int := fun _ => none
  fmtDateS : String → String := fun s => s

/-- `(s.f || "")`: the field's value, `""` when missing, null or empty. -/
def showField (s : ShowRec) (k : String) : String :=
  match s.find? (fun e => e.1 = k) with
  | some (_, some v) => v
  | _ => ""

/-- JS `a || b` on two possibly-absent strings. -/
def jsOr (a b : Option String) : Option String := if optTruthy a then a else b

/-- `parseMessage` (lines 151–188).  The source initializes `out`, computes
`normalized`, runs `if (!normalized) out.normalized = normalized;` and then
hits an unconditional `return out;` (line 155), so the verb scan and the
entity scan of lines 157–186 are dead code and every message parses to
`{ verb: null, entities: [], normalized: "" }`.  The loaded vocabularies
would only be read by the dead code, so they do not appear. -/
def parseMessage (message : String) : Parsed :=
  let out : Parsed := { verb := none, entities := [], normalized := "" }
  let normalized := normalizeMessage message
  let out := if normalized = "" then { out with normalized := normalized } else out
  out

/-- `getShowByCity` (lines 191–196): the first show whose city matches
case-insensitively; a falsy city short-circuits to null. -/
def getShowByCity (eng : Engine) (city : String) : Except String (Option ShowRec) :=
  if city = "" then Except.ok none
  else Except.map
    (fun shows => shows.find? (fun s => asciiLower (showField s "city") = asciiLower city))
    eng.getShows

/-- `k.replace(/_?(time|name)$/i, "")` of `guessTermFromShowKeys`. -/
def stripTimeNameSuffix (k : String) : String :=
  let lk := asciiLower k
  if strEndsWith lk "_time" || strEndsWith lk "_name" then
    ⟨k.data.take (k.data.length - 5)⟩
  else if strEndsWith lk "time" || strEndsWith lk "name" then
    ⟨k.data.take (k.data.length - 4)⟩
  else k

/-- `guessTermFromShowKeys` (lines 297–307): the first show key whose base
name (suffix stripped, normalized) occurs inside the normalized query. -/
def guessTermFromShowKeys (qstr : String) (showObj : ShowRec) : Option String :=
  (showObj.map Prod.fst).findSome? (fun k =>
    let base := stripTimeNameSuffix k
    let baseNorm := normAlnum base
    if baseNorm ≠ "" ∧ strContains (normAlnum qstr) baseNorm then some base else none)

/-- The `locParts` join for `contextualLocation` (lines 321–322) and
`lineForShow` (line 94): venue, city, state-or-region, country, blanks
dropped. -/
def placeString (s : ShowRec) : String :=
  String.intercalate ", "
    ([showField s "venue_name", showField s "city",
      (if showField s "state" ≠ "" then showField s "state" else showField s "region"),
      showField s "country"].filter (fun x => x ≠ ""))

/-- The tail of the city branch of `retrieveData` (lines 328–332): generic
definition fallback when the term is a known vocabulary identifier, else
null. -/
def genericOrNone (eng : Engine) (term : Option String) :
    Except String (Option Retrieved) :=
  if optTruthy term ∧ eng.industryTerms.contains (term.getD "") then
    Except.map
      (fun defn => match defn with
        | some d => if d ≠ "" then some (Retrieved.genericTerm (term.getD "") d) else none
        | none => none)
      (eng.resolveAnswerF (term.getD "") "en-AU")
  else Except.ok none

/-- `retrieveData` (lines 274–348). -/
def retrieveData (eng : Engine) (parsed : Parsed) : Except String (Option Retrieved) :=
  if parsed.entities.isEmpty ∧ parsed.normalized = "" then Except.ok none
  else
    let term1 := parsed.entities.find? (fun e => eng.industryTerms.contains e)
    let city1 := parsed.entities.find? (fun e => eng.cities.contains e)
    let q := parsed.normalized
    if mentionsFlightRe q then
      Except.map (fun text => some (Retrieved.travelSchedule text))
        (eng.fmtFlights 10
          (if optTruthy city1 then { userTz := "Australia/Sydney", toCity := city1 }
           else { userTz := "Australia/Sydney" }))
    else if optTruthy city1 then
      let city := city1.getD ""
      Except.bind (getShowByCity eng city) (fun showOpt =>
        match showOpt with
        | some s =>
          let term2 := if optTruthy term1 then term1
            else match guessTermFromShowKeys q s with
              | some g => if g ≠ "" then some g else term1
              | none => term1
          match (if optTruthy term2
                 then findFieldForTerm s (term2.getD "") parsed.verb else none) with
          | some hit =>
            if parsed.verb = some "where is" then
              Except.ok (some (Retrieved.contextualLocation (term2.getD "") city
                hit.k hit.val (placeString s)))
            else
              Except.ok (some (Retrieved.contextualTerm (term2.getD "") city
                hit.k hit.val))
          | none => genericOrNone eng term2
        | none => genericOrNone eng term1)
    else if optTruthy term1 then genericOrNone eng term1
    else Except.ok none

/-- The travel-intent option derivation of `generateResponse`
(lines 452–483): the `from`-city test first, then `to`-city, then the
standalone word `next`, then `today`, then a bare city name; the first
truthy hit wins, anything else leaves no filter and the default limit 10. -/
def travelOpts (cities : List String) (message : String) : FlightOpts × Nat :=
  let normalizedMessage := asciiLower message
  let fromCityMatch := cities.find?
    (fun city => strContains normalizedMessage ("from " ++ city))
  if optTruthy fromCityMatch then
    ({ userTz := "Australia/Sydney", fromCity := fromCityMatch }, 50)
  else
    let toCityMatch := cities.find?
      (fun city => strContains normalizedMessage ("to " ++ city))
    if optTruthy toCityMatch then
      ({ userTz := "Australia/Sydney", toCity := toCityMatch }, 50)
    else if containsWord "next" normalizedMessage then
      ({ userTz := "Australia/Sydney", nextOnly := true }, 1)
    else if containsWord "today" normalizedMessage then
      ({ userTz := "Australia/Sydney", todayOnly := true }, 50)
    else
      let genericCityMatch := cities.find?
        (fun city => strContains normalizedMessage city)
      if optTruthy genericCityMatch then
        ({ userTz := "Australia/Sydney", city := genericCityMatch }, 50)
      else ({ userTz := "Australia/Sydney" }, 10)

/-- How many of the five flight-filter options are set. -/
def filterCount (o : FlightOpts) : Nat :=
  (if o.fromCity.isSome then 1 else 0) + (if o.toCity.isSome then 1 else 0)
  + (if o.city.isSome then 1 else 0) + (if o.nextOnly then 1 else 0)
  + (if o.todayOnly then 1 else 0)

/-! ## Response generation: `generateResponse` (lines 385–499) -/

/-- The response object the engine returns: `{ type, text, ...metadata }`. -/
structure Resp where
  type : String
  text : String
  error : Option String := none
deriving DecidableEq, Repr

/-- The intent object handed to `generateResponse` (`entities_term_id`
models `intent.entities && intent.entities.term_id`). -/
structure IntentIn where
  intent_type : Option String := none
  term_id : Option String := none
  entities_term_id : Option String := none
deriving DecidableEq, Repr

/-- The `member` argument: a string, an object with identifier fields, or
absent. -/
inductive MemberIn where
  | str (s : String)
  | obj (memberId member_id id identifier : Option String)
  | absent
deriving DecidableEq, Repr

/-- Lines 387–389: `member.memberId || member.member_id || member.id ||
member.identifier || "guest"`. -/
def memberStr : MemberIn → String
  | .str s => s
  | .absent => "guest"
  | .obj a b c d =>
    match jsOr (jsOr (jsOr a b) c) d with
    | some s => if s = "" then "guest" else s
    | none => "guest"

/-- The fixed fallback apology strings of `generateResponseText`. -/
def FALLBACKS : List String :=
  ["Sorry, I don’t have that info yet. Try another term?",
   "Hmm, I can’t find that. Want to ask about show times or venues?",
   "I don’t have that, but I can help with schedules, venues, or merch."]

/-- `FALLBACKS[Math.floor(Math.random() * FALLBACKS.length)]`, the random
draw modelled by the engine's `randPick` index. -/
def pickFallback (rand : Nat) : String := (FALLBACKS.get? (rand % 3)).getD ""

/-- `generateResponseText` (lines 350–382). -/
def generateResponseText (eng : Engine) : Option Retrieved → String
  | none => pickFallback eng.randPick
  | some (Retrieved.travelSchedule text) =>
    if text ≠ "" then text else pickFallback eng.randPick
  | some (Retrieved.contextualLocation term city _ _ place) =>
    "The " ++ term ++ " for the show in " ++ city ++ " is at " ++ place ++ "."
  | some (Retrieved.contextualTerm term city field value) =>
    "The " ++ term ++ " for the show in " ++ city ++ " is "
      ++ (if strContains (asciiLower field) "time" then "at " else "") ++ value ++ "."
  | some (Retrieved.genericTerm term definition) =>
    "The official definition for " ++ term ++ " is: " ++ definition

/-- `lineForShow` (lines 91–100). -/
def lineForShow (eng : Engine) (s : ShowRec) (i : Nat) : String :=
  let locParts := [showField s "venue_name", showField s "city",
    (if showField s "state" ≠ "" then showField s "state" else showField s "region"),
    showField s "country"].filter (fun x => x ≠ "")
  let tzSuffix := if showField s "timezone" ≠ "" then " " ++ showField s "timezone" else ""
  let bits := [toString i ++ ". " ++ eng.fmtDateS (showField s "date")]
    ++ (if locParts ≠ [] then ["    📍 " ++ String.intercalate ", " locParts] else [])
    ++ (if showField s "doors_time" ≠ "" then
        ["    🚪 Doors: " ++ showField s "doors_time" ++ tzSuffix] else [])
    ++ (if showField s "show_time" ≠ "" then
        ["    🎫 Show: " ++ showField s "show_time" ++ tzSuffix] else [])
    ++ (if showField s "ticket_status" ≠ "" then
        ["    🎟️ " ++ showField s "ticket_status"] else [])
  String.intercalate "\n" bits

/-- The show sort key: `new Date(s.date)` through the `Date` oracle. -/
def showDateKey (eng : Engine) (s : ShowRec) : Int :=
  (eng.parseDateF (showField s "date")).getD 0

/-- Stable ascending insertion for the show sort. -/
def insertShowAsc (eng : Engine) (a : ShowRec) : List ShowRec → List ShowRec
  | [] => [a]
  | b :: l =>
    if showDateKey eng a ≤ showDateKey eng b then a :: b :: l
    else b :: insertShowAsc eng a l

/-- `shows.sort((a, b) => new Date(a.date) - new Date(b.date))` (stable). -/
def sortShowsAsc (eng : Engine) : List ShowRec → List ShowRec
  | [] => []
  | a :: l => insertShowAsc eng a (sortShowsAsc eng l)

/-- `/\bnext\s+show\b/i` at one position: `next`, at least one whitespace,
`show`, boundaries at both ends. -/
def nextShowHere (l : List Char) : Bool :=
  "next".data.isPrefixOf l &&
    (let rest := l.drop 4
     rest.takeWhile isSpaceChar ≠ [] && wordHere "show".data (rest.dropWhile isSpaceChar))

/-- Scan of `/\bnext\s+show\b/i.test(message)`. -/
def nextShowAux : Option Char → List Char → Bool
  | prev, l =>
    ((match prev with | none => true | some c => !isWordChar c) && nextShowHere l) ||
    (match l with | [] => false | c :: t => nextShowAux (some c) t)

/-- `const wantNext = /\bnext\s+show\b/i.test(message || "")` (line 410). -/
def wantNextShow (message : String) : Bool :=
  nextShowAux none (asciiLower message).data

/-- The `show_schedule` handler (lines 399–416). -/
def showScheduleResp (eng : Engine) (message mstr : String) : Except String Resp :=
  Except.map (fun shows =>
    let upcoming := sortShowsAsc eng (shows.filter (fun s =>
      showField s "date" != "" &&
        (match eng.parseDateF (showField s "date") with
         | some d => decide (eng.nowMs ≤ d)
         | none => false)))
    if upcoming.isEmpty then
      { type := "schedule", text := "No upcoming shows found (for: " ++ mstr ++ ")" }
    else
      let list := if wantNextShow message then upcoming.take 1 else upcoming.take 10
      let lines := list.mapIdx (fun idx s => lineForShow eng s (idx + 1))
      let header := "I found " ++ toString list.length ++ " "
        ++ (if list.length = 1 then "show" else "shows") ++ ":\n\n"
      { type := "schedule", text := header ++ String.intercalate "\n" lines })
    eng.getShows

/-- Steps 3 of the `term_lookup` handler (lines 429–442): the legacy
quick-match safety net (`process.env.LOCALE` is modelled by its "en-AU"
default). -/
def termSafetyNet (eng : Engine) (message : String) (it : IntentIn) :
    Except String (Option Retrieved) :=
  let termId1 := jsOr it.term_id it.entities_term_id
  let termId := if optTruthy termId1 then termId1
    else if message ≠ "" then
      match eng.industryTerms.find?
          (fun term => strContains (asciiLower message) term) with
      | some t => if t ≠ "" then some t else termId1
      | none => termId1
    else termId1
  if optTruthy termId then
    Except.map (fun defn =>
      match defn with
      | some d =>
        if d ≠ "" then some (Retrieved.genericTerm (termId.getD "") d) else none
      | none => none)
      (eng.resolveAnswerF (termId.getD "") "en-AU")
  else Except.ok none

/-- Step 3's guard: a non-null retrieval stands, the safety net fills in
otherwise. -/
def termStep (eng : Engine) (message : String) (it : IntentIn) :
    Option Retrieved → Except String (Option Retrieved)
  | some r => Except.ok (some r)
  | none => termSafetyNet eng message it

/-- The `term_lookup` handler (lines 419–447): parse → retrieve → safety
net → generate text. -/
def termLookupResp (eng : Engine) (message : String) (it : IntentIn) :
    Except String Resp :=
  Except.bind (retrieveData eng (parseMessage message)) (fun retrieved0 =>
    Except.map
      (fun retrieved => { type := "answer", text := generateResponseText eng retrieved })
      (termStep eng message it retrieved0))

/-- The `travel` handler (lines 450–490) with its inner try/catch: a
formatter failure becomes the error-typed response. -/
def travelResp (eng : Engine) (message : String) : Resp :=
  match eng.fmtFlights (travelOpts eng.cities message).2 (travelOpts eng.cities message).1 with
  | Except.ok text => { type := "schedule", text := text }
  | Except.error e => { type := "error", text := "Flights lookup failed: " ++ e }

/-- Line 392's fallback response for a missing or falsy intent type. -/
def fallbackResp : Resp :=
  { type := "fallback", text := "I\x27m not sure how to handle that yet." }

/-- The dispatcher body inside the outer try (lines 386–494); the switch on
`intent.intent_type` is the if-chain, with the JS falsy check
`!intent || !intent.intent_type` first. -/
def generateBody (eng : Engine) (message : String) (intent : Option IntentIn)
    (member : MemberIn) : Except String Resp :=
  match intent with
  | none => Except.ok fallbackResp
  | some it =>
    match it.intent_type with
    | none => Except.ok fallbackResp
    | some t =>
      if t = "" then Except.ok fallbackResp
      else if t = "help" then
        Except.ok { type := "help",
                    text := "You can ask me about shows, schedules, venues, or general tour details." }
      else if t = "show_schedule" then showScheduleResp eng message (memberStr member)
      else if t = "term_lookup" then termLookupResp eng message it
      else if t = "travel" then Except.ok (travelResp eng message)
      else Except.ok { type := "unknown",
                       text := "I don’t have a handler for intent: " ++ t }

/-- `generateResponse` (lines 385–499): the dispatcher with its outer
catch, which converts any escaped exception into the error-typed response. -/
def generateResponse (eng : Engine) (message : String) (intent : Option IntentIn)
    (member : MemberIn) : Resp :=
  match generateBody eng message intent member with
  | Except.ok r => r
  | Except.error e =>
    { type := "error",
      text := "Sorry, something went wrong while generating a response.",
      error := some e }

/-! ### Claims C1, C9, C10 -/

/-- C1 (code bug): the unconditional `return out;` at line 155 of
`parseMessage` makes the verb and entity scans dead code, so every message
parses to `{ verb: null, entities: [], normalized: "" }`.  In particular
the message "soundcheck", whose normalized form contains the vocabulary
term "soundcheck" as a substring, yields an empty entity list instead of
`["soundcheck"]`. -/
theorem parseMessage_always_empty :
    (∀ message : String,
      parseMessage message = { verb := none, entities := [], normalized := "" }) ∧
    strContains (normalizeMessage "soundcheck") "soundcheck" = true ∧
    (parseMessage "soundcheck").entities = [] := by
  refine ⟨?_, by decide, rfl⟩
  intro message
  simp only [parseMessage]
  split_ifs with h
  · rw [h]
  · rfl

/-- C9: whenever the normalized text contains the standalone word "flight"
or "flights" (word-boundary match), `retrieveData` routes to
`travelSchedule` regardless of the extracted term and city entities: the
result is exactly the flight formatter's output wrapped in
`travelSchedule`, and the term/city resolution branches are never
reached. -/
theorem retrieveData_flight_overrides (eng : Engine) (parsed : Parsed)
    (h : mentionsFlightRe parsed.normalized = true) :
    retrieveData eng parsed
      = Except.map (fun text => some (Retrieved.travelSchedule text))
          (eng.fmtFlights 10
            (if optTruthy (parsed.entities.find? (fun e => eng.cities.contains e))
             then { userTz := "Australia/Sydney",
                    toCity := parsed.entities.find? (fun e => eng.cities.contains e) }
             else { userTz := "Australia/Sydney" })) := by
  have hne : ¬(parsed.entities.isEmpty ∧ parsed.normalized = "") := by
    rintro ⟨-, h2⟩
    rw [h2] at h
    exact absurd h (by decide)
  simp only [retrieveData, if_neg hne, h, if_true]

/-- C9 witness: a default engine and a parsed query whose normalized text
is "show me flights". -/
theorem retrieveData_flight_overrides_witness :
    retrieveData {} { normalized := "show me flights" }
      = Except.map (fun text => some (Retrieved.travelSchedule text))
          (Engine.fmtFlights {} 10
            (if optTruthy ((({ normalized := "show me flights" } : Parsed)).entities.find?
                (fun e => (({} : Engine)).cities.contains e))
             then { userTz := "Australia/Sydney",
                    toCity := (({ normalized := "show me flights" } : Parsed)).entities.find?
                      (fun e => (({} : Engine)).cities.contains e) }
             else { userTz := "Australia/Sydney" })) :=
  retrieveData_flight_overrides {} { normalized := "show me flights" } (by decide)

/-- Soundness half of the travel-option cascade: at most one filter is
set, and a set filter implies its trigger, its limit, and the failure of
the earlier standalone-word tests. -/
theorem travelOpts_filters_sound (cities : List String) (message : String) :
    (travelOpts cities message).1.userTz = "Australia/Sydney" ∧
    filterCount (travelOpts cities message).1 ≤ 1 ∧
    (∀ c, (travelOpts cities message).1.fromCity = some c →
      c ∈ cities ∧ strContains (asciiLower message) ("from " ++ c) = true ∧
      (travelOpts cities message).2 = 50) ∧
    (∀ c, (travelOpts cities message).1.toCity = some c →
      c ∈ cities ∧ strContains (asciiLower message) ("to " ++ c) = true ∧
      (travelOpts cities message).2 = 50) ∧
    ((travelOpts cities message).1.nextOnly = true →
      containsWord "next" (asciiLower message) = true ∧
      (travelOpts cities message).2 = 1) ∧
    ((travelOpts cities message).1.todayOnly = true →
      containsWord "today" (asciiLower message) = true ∧
      containsWord "next" (asciiLower message) = false ∧
      (travelOpts cities message).2 = 50) ∧
    (∀ c, (travelOpts cities message).1.city = some c →
      c ∈ cities ∧ strContains (asciiLower message) c = true ∧
      containsWord "next" (asciiLower message) = false ∧
      containsWord "today" (asciiLower message) = false ∧
      (travelOpts cities message).2 = 50) ∧
    (filterCount (travelOpts cities message).1 = 0 →
      (travelOpts cities message).2 = 10) := by
  by_cases h1 : optTruthy (cities.find?
      (fun city => strContains (asciiLower message) ("from " ++ city))) = true
  · obtain ⟨c0, hf⟩ : ∃ c0, cities.find?
        (fun city => strContains (asciiLower message) ("from " ++ city)) = some c0 := by
      cases hyp : cities.find?
          (fun city => strContains (asciiLower message) ("from " ++ city)) with
      | none => rw [hyp] at h1; exact absurd h1 (by simp [optTruthy])
      | some c => exact ⟨c, rfl⟩
    have hres : travelOpts cities message
        = ({ userTz := "Australia/Sydney", fromCity := some c0 }, 50) := by
      simp only [travelOpts]
      rw [hf, if_pos (hf ▸ h1)]
    refine ⟨by rw [hres], by rw [hres]; simp [filterCount], ?_, ?_, ?_, ?_, ?_, ?_⟩
    · intro c hc
      rw [hres] at hc ⊢
      cases hc
      refine ⟨List.mem_of_find?_eq_some hf, ?_, rfl⟩
      have := List.find?_some hf
      simpa using this
    · intro c hc
      rw [hres] at hc
      cases hc
    · intro hc
      rw [hres] at hc
      cases hc
    · intro hc
      rw [hres] at hc
      cases hc
    · intro c hc
      rw [hres] at hc
      cases hc
    · intro hc
      rw [hres] at hc
      simp [filterCount] at hc
  · by_cases h2 : optTruthy (cities.find?
        (fun city => strContains (asciiLower message) ("to " ++ city))) = true
    · obtain ⟨c0, hf⟩ : ∃ c0, cities.find?
          (fun city => strContains (asciiLower message) ("to " ++ city)) = some c0 := by
        cases hyp : cities.find?
            (fun city => strContains (asciiLower message) ("to " ++ city)) with
        | none => rw [hyp] at h2; exact absurd h2 (by simp [optTruthy])
        | some c => exact ⟨c, rfl⟩
      have hres : travelOpts cities message
          = ({ userTz := "Australia/Sydney", toCity := some c0 }, 50) := by
        simp only [travelOpts]
        rw [if_neg h1, hf, if_pos (hf ▸ h2)]
      refine ⟨by rw [hres], by rw [hres]; simp [filterCount], ?_, ?_, ?_, ?_, ?_, ?_⟩
      · intro c hc
        rw [hres] at hc
        cases hc
      · intro c hc
        rw [hres] at hc ⊢
        cases hc
        refine ⟨List.mem_of_find?_eq_some hf, ?_, rfl⟩
        have := List.find?_some hf
        simpa using this
      · intro hc
        rw [hres] at hc
        cases hc
      · intro hc
        rw [hres] at hc
        cases hc
      · intro c hc
        rw [hres] at hc
        cases hc
      · intro hc
        rw [hres] at hc
        simp [filterCount] at hc
    · by_cases h3 : containsWord "next" (asciiLower message) = true
      · have hres : travelOpts cities message
            = ({ userTz := "Australia/Sydney", nextOnly := true }, 1) := by
          simp only [travelOpts]
          rw [if_neg h1, if_neg h2, if_pos h3]
        refine ⟨by rw [hres], by rw [hres]; simp [filterCount], ?_, ?_, ?_, ?_, ?_, ?_⟩
        · intro c hc
          rw [hres] at hc
          cases hc
        · intro c hc
          rw [hres] at hc
          cases hc
        · intro hc
          rw [hres]
          exact ⟨h3, rfl⟩
        · intro hc
          rw [hres] at hc
          cases hc
        · intro c hc
          rw [hres] at hc
          cases hc
        · intro hc
          rw [hres] at hc
          simp [filterCount] at hc
      · by_cases h4 : containsWord "today" (asciiLower message) = true
        · have hres : travelOpts cities message
              = ({ userTz := "Australia/Sydney", todayOnly := true }, 50) := by
            simp only [travelOpts]
            rw [if_neg h1, if_neg h2, if_neg h3, if_pos h4]
          refine ⟨by rw [hres], by rw [hres]; simp [filterCount], ?_, ?_, ?_, ?_, ?_, ?_⟩
          · intro c hc
            rw [hres] at hc
            cases hc
          · intro c hc
            rw [hres] at hc
            cases hc
          · intro hc
            rw [hres] at hc
            cases hc
          · intro hc
            rw [hres]
            exact ⟨h4, by simpa using h3, rfl⟩
          · intro c hc
            rw [hres] at hc
            cases hc
          · intro hc
            rw [hres] at hc
            simp [filterCount] at hc
        · by_cases h5 : optTruthy (cities.find?
              (fun city => strContains (asciiLower message) city)) = true
          · obtain ⟨c0, hf⟩ : ∃ c0, cities.find?
                (fun city => strContains (asciiLower message) city) = some c0 := by
              cases hyp : cities.find?
                  (fun city => strContains (asciiLower message) city) with
              | none => rw [hyp] at h5; exact absurd h5 (by simp [optTruthy])
              | some c => exact ⟨c, rfl⟩
            have hres : travelOpts cities message
                = ({ userTz := "Australia/Sydney", city := some c0 }, 50) := by
              simp only [travelOpts]
              rw [if_neg h1, if_neg h2, if_neg h3, if_neg h4, hf, if_pos (hf ▸ h5)]
            refine ⟨by rw [hres], by rw [hres]; simp [filterCount], ?_, ?_, ?_, ?_, ?_, ?_⟩
            · intro c hc
              rw [hres] at hc
              cases hc
            · intro c hc
              rw [hres] at hc
              cases hc
            · intro hc
              rw [hres] at hc
              cases hc
            · intro hc
              rw [hres] at hc
              cases hc
            · intro c hc
              rw [hres] at hc ⊢
              cases hc
              refine ⟨List.mem_of_find?_eq_some hf, ?_, by simpa using h3,
                by simpa using h4, rfl⟩
              have := List.find?_some hf
              simpa using this
            · intro hc
              rw [hres] at hc
              simp [filterCount] at hc
          · have hres : travelOpts cities message
                = ({ userTz := "Australia/Sydney" }, 10) := by
              simp only [travelOpts]
              rw [if_neg h1, if_neg h2, if_neg h3, if_neg h4, if_neg h5]
            refine ⟨by rw [hres], by rw [hres]; simp [filterCount], ?_, ?_, ?_, ?_, ?_, ?_⟩
            · intro c hc
              rw [hres] at hc
              cases hc
            · intro c hc
              rw [hres] at hc
              cases hc
            · intro hc
              rw [hres] at hc
              cases hc
            · intro hc
              rw [hres] at hc
              cases hc
            · intro c hc
              rw [hres] at hc
              cases hc
            · intro hc
              rw [hres]

/-! ### Claim C7 -/

/-- The closed set of response types the core may return. -/
def respTypes : List String := ["answer", "schedule", "help", "fallback", "unknown", "error"]

theorem showScheduleResp_type {eng : Engine} {message mstr : String} {r : Resp}
    (h : showScheduleResp eng message mstr = Except.ok r) : r.type = "schedule" := by
  unfold showScheduleResp at h
  cases hg : eng.getShows with
  | error e => rw [hg] at h; cases h
  | ok shows =>
    rw [hg] at h
    simp only [Except.map] at h
    cases h
    split
    · rfl
    · rfl

theorem termLookupResp_type {eng : Engine} {message : String} {it : IntentIn}
    {r : Resp} (h : termLookupResp eng message it = Except.ok r) :
    r.type = "answer" := by
  unfold termLookupResp at h
  cases hr0 : retrieveData eng (parseMessage message) with
  | error e => rw [hr0] at h; cases h
  | ok v =>
    rw [hr0] at h
    simp only [Except.bind] at h
    cases v with
    | some rr =>
      simp only [termStep, Except.map] at h
      cases h
      rfl
    | none =>
      simp only [termStep] at h
      cases hs : termSafetyNet eng message it with
      | error e => rw [hs] at h; cases h
      | ok w =>
        rw [hs] at h
        simp only [Except.map] at h
        cases h
        rfl

theorem travelResp_type (eng : Engine) (message : String) :
    (travelResp eng message).type = "schedule"
      ∨ (travelResp eng message).type = "error" := by
  unfold travelResp
  cases h : eng.fmtFlights (travelOpts eng.cities message).2 (travelOpts eng.cities message).1 with
  | ok text => left; rfl
  | error e => right; rfl

/-- C7: `generateResponse` never raises to its caller: for every engine
state, message, intent and member — including collaborators that reject —
it returns a well-formed response whose `type` is one of `answer`,
`schedule`, `help`, `fallback`, `unknown`, `error`; the outer catch turns
any escaped exception into the error-typed response. -/
theorem generateResponse_well_typed (eng : Engine) (message : String)
    (intent : Option IntentIn) (member : MemberIn) :
    (generateResponse eng message intent member).type ∈ respTypes := by
  unfold generateResponse
  cases hb : generateBody eng message intent member with
  | error e => simp [respTypes]
  | ok r =>
    show r.type ∈ respTypes
    cases intent with
    | none =>
      simp only [generateBody] at hb
      cases hb
      simp [fallbackResp, respTypes]
    | some it =>
      cases hit : it.intent_type with
      | none =>
        simp only [generateBody, hit] at hb
        cases hb
        simp [fallbackResp, respTypes]
      | some t =>
        simp only [generateBody, hit] at hb
        split_ifs at hb with hA hB hC hD hE
        · cases hb
          simp [fallbackResp, respTypes]
        · cases hb
          simp [respTypes]
        · have := showScheduleResp_type hb
          simp [respTypes, this]
        · have := termLookupResp_type hb
          simp [respTypes, this]
        · cases hb
          rcases travelResp_type eng message with h | h <;> simp [respTypes, h]
        · cases hb
          simp [respTypes]

/-! ### Claim C10 (completeness half and combined statement) -/

/-- A city search with at least one match finds a first match, and — when
the city list contains no empty name — that found city is truthy. -/
theorem optTruthy_find?_of_exists {cities : List String} {p : String → Bool}
    (hnil : "" ∉ cities) (hex : ∃ c ∈ cities, p c = true) :
    ∃ c0, cities.find? p = some c0 ∧ optTruthy (cities.find? p) = true := by
  obtain ⟨c, hc, hp⟩ := hex
  have hsome : (cities.find? p).isSome := List.find?_isSome.mpr ⟨c, hc, hp⟩
  obtain ⟨c0, hf⟩ := Option.isSome_iff_exists.mp hsome
  have hc0 : c0 ∈ cities := List.mem_of_find?_eq_some hf
  have hne : c0 ≠ "" := fun h => hnil (h ▸ hc0)
  exact ⟨c0, hf, by rw [hf]; simpa [optTruthy] using hne⟩

/-- A city search whose predicate fails on every city finds nothing, so
the corresponding branch guard is false. -/
theorem optTruthy_find?_of_all_false {cities : List String} {p : String → Bool}
    (hall : ∀ c ∈ cities, p c = false) :
    cities.find? p = none ∧ ¬(optTruthy (cities.find? p) = true) := by
  have hnone : cities.find? p = none :=
    List.find?_eq_none.mpr (fun x hx => by simp [hall x hx])
  exact ⟨hnone, by rw [hnone]; simp [optTruthy]⟩

/-- Completeness half of the travel-option cascade: a present trigger sets
its filter, in the cascade's order, with the earlier tests' failure as
premises.  Where the trigger is a found city, the hypothesis
`"" ∉ cities` reflects the city loaders (`getCitiesFromCsv` adds only
truthy names and the static `CITIES` list has none empty); it is needed
because a found empty city is falsy in JS and does not take the branch. -/
theorem travelOpts_filters_complete (cities : List String) (message : String) :
    ("" ∉ cities →
      (∃ c ∈ cities, strContains (asciiLower message) ("from " ++ c) = true) →
      ∃ c, (travelOpts cities message).1.fromCity = some c ∧
        (travelOpts cities message).2 = 50) ∧
    ("" ∉ cities →
      (∀ c ∈ cities, strContains (asciiLower message) ("from " ++ c) = false) →
      (∃ c ∈ cities, strContains (asciiLower message) ("to " ++ c) = true) →
      ∃ c, (travelOpts cities message).1.toCity = some c ∧
        (travelOpts cities message).2 = 50) ∧
    ((∀ c ∈ cities, strContains (asciiLower message) ("from " ++ c) = false) →
      (∀ c ∈ cities, strContains (asciiLower message) ("to " ++ c) = false) →
      containsWord "next" (asciiLower message) = true →
      (travelOpts cities message).1.nextOnly = true ∧
        (travelOpts cities message).2 = 1) ∧
    ((∀ c ∈ cities, strContains (asciiLower message) ("from " ++ c) = false) →
      (∀ c ∈ cities, strContains (asciiLower message) ("to " ++ c) = false) →
      containsWord "next" (asciiLower message) = false →
      containsWord "today" (asciiLower message) = true →
      (travelOpts cities message).1.todayOnly = true ∧
        (travelOpts cities message).2 = 50) ∧
    ("" ∉ cities →
      (∀ c ∈ cities, strContains (asciiLower message) ("from " ++ c) = false) →
      (∀ c ∈ cities, strContains (asciiLower message) ("to " ++ c) = false) →
      containsWord "next" (asciiLower message) = false →
      containsWord "today" (asciiLower message) = false →
      (∃ c ∈ cities, strContains (asciiLower message) c = true) →
      ∃ c, (travelOpts cities message).1.city = some c ∧
        (travelOpts cities message).2 = 50) ∧
    ((∀ c ∈ cities, strContains (asciiLower message) ("from " ++ c) = false) →
      (∀ c ∈ cities, strContains (asciiLower message) ("to " ++ c) = false) →
      containsWord "next" (asciiLower message) = false →
      containsWord "today" (asciiLower message) = false →
      (∀ c ∈ cities, strContains (asciiLower message) c = false) →
      travelOpts cities message = ({ userTz := "Australia/Sydney" }, 10)) := by
  refine ⟨?_, ?_, ?_, ?_, ?_, ?_⟩
  · intro hnil hex
    obtain ⟨c0, hf, ht⟩ := optTruthy_find?_of_exists hnil hex
    have hres : travelOpts cities message
        = ({ userTz := "Australia/Sydney", fromCity := some c0 }, 50) := by
      simp only [travelOpts]
      rw [hf, if_pos (hf ▸ ht)]
    exact ⟨c0, by rw [hres], by rw [hres]⟩
  · intro hnil hfrom hex
    obtain ⟨-, h1⟩ := optTruthy_find?_of_all_false hfrom
    obtain ⟨c0, hf, ht⟩ := optTruthy_find?_of_exists hnil hex
    have hres : travelOpts cities message
        = ({ userTz := "Australia/Sydney", toCity := some c0 }, 50) := by
      simp only [travelOpts]
      rw [if_neg h1, hf, if_pos (hf ▸ ht)]
    exact ⟨c0, by rw [hres], by rw [hres]⟩
  · intro hfrom hto hnext
    obtain ⟨-, h1⟩ := optTruthy_find?_of_all_false hfrom
    obtain ⟨-, h2⟩ := optTruthy_find?_of_all_false hto
    have hres : travelOpts cities message
        = ({ userTz := "Australia/Sydney", nextOnly := true }, 1) := by
      simp only [travelOpts]
      rw [if_neg h1, if_neg h2, if_pos hnext]
    exact ⟨by rw [hres], by rw [hres]⟩
  · intro hfrom hto hnext htoday
    obtain ⟨-, h1⟩ := optTruthy_find?_of_all_false hfrom
    obtain ⟨-, h2⟩ := optTruthy_find?_of_all_false hto
    have h3 : ¬(containsWord "next" (asciiLower message) = true) := by simp [hnext]
    have hres : travelOpts cities message
        = ({ userTz := "Australia/Sydney", todayOnly := true }, 50) := by
      simp only [travelOpts]
      rw [if_neg h1, if_neg h2, if_neg h3, if_pos htoday]
    exact ⟨by rw [hres], by rw [hres]⟩
  · intro hnil hfrom hto hnext htoday hex
    obtain ⟨-, h1⟩ := optTruthy_find?_of_all_false hfrom
    obtain ⟨-, h2⟩ := optTruthy_find?_of_all_false hto
    have h3 : ¬(containsWord "next" (asciiLower message) = true) := by simp [hnext]
    have h4 : ¬(containsWord "today" (asciiLower message) = true) := by simp [htoday]
    obtain ⟨c0, hf, ht⟩ := optTruthy_find?_of_exists hnil hex
    have hres : travelOpts cities message
        = ({ userTz := "Australia/Sydney", city := some c0 }, 50) := by
      simp only [travelOpts]
      rw [if_neg h1, if_neg h2, if_neg h3, if_neg h4, hf, if_pos (hf ▸ ht)]
    exact ⟨c0, by rw [hres], by rw [hres]⟩
  · intro hfrom hto hnext htoday hbare
    obtain ⟨-, h1⟩ := optTruthy_find?_of_all_false hfrom
    obtain ⟨-, h2⟩ := optTruthy_find?_of_all_false hto
    have h3 : ¬(containsWord "next" (asciiLower message) = true) := by simp [hnext]
    have h4 : ¬(containsWord "today" (asciiLower message) = true) := by simp [htoday]
    obtain ⟨-, h5⟩ := optTruthy_find?_of_all_false hbare
    simp only [travelOpts]
    rw [if_neg h1, if_neg h2, if_neg h3, if_neg h4, if_neg h5]

/-- C10: the travel handler derives at most one flight-filter option from
the lowercased message, testing in the fixed order `from`-city, `to`-city,
standalone `next`, standalone `today`, bare city, with the first hit
winning.  Soundness: a set filter implies its trigger, its limit
(50/50/1/50/50) and the failure of the earlier word tests, and at most one
filter is set.  Completeness: a present trigger — the earlier tests having
failed — sets its filter with its limit, a from-trigger therefore beats a
simultaneous to-trigger, and with no trigger at all no filter is set and
the limit is 10.  (The found-city triggers assume `"" ∉ cities`, which
both city loaders guarantee, because a found empty city is falsy in JS.) -/
theorem travelOpts_one_filter_first_hit (cities : List String) (message : String) :
    ((travelOpts cities message).1.userTz = "Australia/Sydney" ∧
    filterCount (travelOpts cities message).1 ≤ 1 ∧
    (∀ c, (travelOpts cities message).1.fromCity = some c →
      c ∈ cities ∧ strContains (asciiLower message) ("from " ++ c) = true ∧
      (travelOpts cities message).2 = 50) ∧
    (∀ c, (travelOpts cities message).1.toCity = some c →
      c ∈ cities ∧ strContains (asciiLower message) ("to " ++ c) = true ∧
      (travelOpts cities message).2 = 50) ∧
    ((travelOpts cities message).1.nextOnly = true →
      containsWord "next" (asciiLower message) = true ∧
      (travelOpts cities message).2 = 1) ∧
    ((travelOpts cities message).1.todayOnly = true →
      containsWord "today" (asciiLower message) = true ∧
      containsWord "next" (asciiLower message) = false ∧
      (travelOpts cities message).2 = 50) ∧
    (∀ c, (travelOpts cities message).1.city = some c →
      c ∈ cities ∧ strContains (asciiLower message) c = true ∧
      containsWord "next" (asciiLower message) = false ∧
      containsWord "today" (asciiLower message) = false ∧
      (travelOpts cities message).2 = 50) ∧
    (filterCount (travelOpts cities message).1 = 0 →
      (travelOpts cities message).2 = 10)) ∧
    (("" ∉ cities →
      (∃ c ∈ cities, strContains (asciiLower message) ("from " ++ c) = true) →
      ∃ c, (travelOpts cities message).1.fromCity = some c ∧
        (travelOpts cities message).2 = 50) ∧
    ("" ∉ cities →
      (∀ c ∈ cities, strContains (asciiLower message) ("from " ++ c) = false) →
      (∃ c ∈ cities, strContains (asciiLower message) ("to " ++ c) = true) →
      ∃ c, (travelOpts cities message).1.toCity = some c ∧
        (travelOpts cities message).2 = 50) ∧
    ((∀ c ∈ cities, strContains (asciiLower message) ("from " ++ c) = false) →
      (∀ c ∈ cities, strContains (asciiLower message) ("to " ++ c) = false) →
      containsWord "next" (asciiLower message) = true →
      (travelOpts cities message).1.nextOnly = true ∧
        (travelOpts cities message).2 = 1) ∧
    ((∀ c ∈ cities, strContains (asciiLower message) ("from " ++ c) = false) →
      (∀ c ∈ cities, strContains (asciiLower message) ("to " ++ c) = false) →
      containsWord "next" (asciiLower message) = false →
      containsWord "today" (asciiLower message) = true →
      (travelOpts cities message).1.todayOnly = true ∧
        (travelOpts cities message).2 = 50) ∧
    ("" ∉ cities →
      (∀ c ∈ cities, strContains (asciiLower message) ("from " ++ c) = false) →
      (∀ c ∈ cities, strContains (asciiLower message) ("to " ++ c) = false) →
      containsWord "next" (asciiLower message) = false →
      containsWord "today" (asciiLower message) = false →
      (∃ c ∈ cities, strContains (asciiLower message) c = true) →
      ∃ c, (travelOpts cities message).1.city = some c ∧
        (travelOpts cities message).2 = 50) ∧
    ((∀ c ∈ cities, strContains (asciiLower message) ("from " ++ c) = false) →
      (∀ c ∈ cities, strContains (asciiLower message) ("to " ++ c) = false) →
      containsWord "next" (asciiLower message) = false →
      containsWord "today" (asciiLower message) = false →
      (∀ c ∈ cities, strContains (asciiLower message) c = false) →
      travelOpts cities message = ({ userTz := "Australia/Sydney" }, 10))) :=
  ⟨travelOpts_filters_sound cities message, travelOpts_filters_complete cities message⟩

end TmBot
